import Mathlib

/-!
Verification development for the storyhub SDK cache-coherency controller
(storyhub/sdk/StoryscriptHub.py).  The Python source is shallowly embedded:
pure fragments become Lean functions, the shared mutable controller state is
passed explicitly, time.time() values become an explicit `now : Int`
parameter, and the two fallible external collaborators (the GraphQL remote
fetch and the store transaction commit) become explicit `Except` parameters.
Each read of the shared `update_status` field during the gate's bounded
busy-wait is modelled by an observation sequence `obs : Nat -> UStatus`
(concurrent writers may change the field between polls).
-/

namespace StoryHub

/-- Minimal JSON value model for the structured fields (topics,
configuration) carried by service payloads.  The concrete json library is an
external collaborator (spec sect. 1 places JSON (de)serialization out of
scope), so only the values themselves are modelled. -/
inductive Json where
  | null
  | bool (b : Bool)
  | num (n : Int)
  | str (s : String)
  | arr (xs : List Json)
  | obj (fields : List (String × Json))

/-- Serialized text produced by json.dumps.  The codec is an external
collaborator; it is modelled abstractly as a tagged wrapper, so that
json.loads (json.dumps v) = v holds definitionally, which is the only
property of the codec the pipeline relies on. -/
inductive Stored (α : Type) where
  | serialized (v : α)

/-- Model of json.dumps applied by update_cache before storing. -/
def dumps {α : Type} (v : α) : Stored α := Stored.serialized v

/-- Model of json.loads applied by get when deserializing stored text. -/
def loads {α : Type} : Stored α → α
  | Stored.serialized v => v

/-- One payload returned by the Remote Catalog Source (GraphQL.get_all),
with the fields update_cache reads from it (spec sect. 6 contract). -/
structure SPayload where
  serviceUuid : String
  name : String
  alias_ : Option String
  username : String
  description : String
  isCertified : Bool
  public : Bool
  topics : Json
  state : String
  configuration : Json
  readme : String

/-- One row of the Service table.  Structured fields (topics, configuration,
raw payload) are persisted as serialized text, exactly as Service.create
stores them in update_cache. -/
structure SRecord where
  service_uuid : String
  name : String
  alias_ : Option String
  username : String
  description : String
  certified : Bool
  public : Bool
  topics : Option (Stored Json)
  state : String
  configuration : Option (Stored Json)
  readme : String
  raw_data : Stored SPayload

/-- The Service.create call performed by update_cache for one fetched
payload (StoryscriptHub.py lines 229-241): structured fields are serialized
with json.dumps, the whole payload is serialized into raw_data. -/
def toRecord (p : SPayload) : SRecord :=
  { service_uuid := p.serviceUuid
    name := p.name
    alias_ := p.alias_
    username := p.username
    description := p.description
    certified := p.isCertified
    public := p.public
    topics := some (dumps p.topics)
    state := p.state
    configuration := some (dumps p.configuration)
    readme := p.readme
    raw_data := dumps p }

/-- UpdateController status values (IDLE / UPDATING / UPDATED). -/
inductive UStatus where
  | idle
  | updating
  | updated
deriving DecidableEq

/-- UpdateController state: last_update_run (None until the first successful
update), the configured update_interval, and the current update_status. -/
structure UCtrl where
  last_update_run : Option Int
  update_interval : Int
  update_status : UStatus

/-- UpdateController.check_last_update_run: true when no update has
succeeded yet, or when now - last_update_run is at least update_interval. -/
def check_last_update_run (c : UCtrl) (now : Int) : Bool :=
  match c.last_update_run with
  | none => true
  | some t => if now - t < c.update_interval then false else true

/-- UpdateController.is_updating: false for IDLE and UPDATED, true
otherwise (i.e. exactly for UPDATING). -/
def is_updating (c : UCtrl) : Bool :=
  match c.update_status with
  | UStatus.idle => false
  | UStatus.updated => false
  | UStatus.updating => true

/-- Mutation events on the shared refresh state, tagged with whether the
UpdateController.update_lock is held when the mutation executes. -/
inductive GateEvent where
  | markUpdating (underLock : Bool)
  | markUpdated (underLock : Bool)
deriving DecidableEq

/-- Whether a gate event executed while update_lock was held. -/
def eventUnderLock : GateEvent → Bool
  | GateEvent.markUpdating b => b
  | GateEvent.markUpdated b => b

/-- Whether a gate event is the transition into Refreshing. -/
def isMarkUpdating : GateEvent → Bool
  | GateEvent.markUpdating _ => true
  | GateEvent.markUpdated _ => false

/-- Whether a gate event is the release transition (phase to Updated plus
timestamp stamp). -/
def isMarkUpdated : GateEvent → Bool
  | GateEvent.markUpdating _ => false
  | GateEvent.markUpdated _ => true

/-- The observation sequence of the shared update_status during
go_nogo_execute_update: index 0 is the value at entry (the caller holds the
lock, and mark_status_updating only runs under the same lock, so the entry
value is the controller's own field); later indices are the values seen at
the successive polls of the busy-wait, which concurrent calls to
mark_status_updated (not lock-protected) may have changed. -/
def entryObs (c : UCtrl) (obs : Nat → UStatus) : Nat → UStatus :=
  fun k => if k = 0 then c.update_status else obs k

/-- Index at which the bounded busy-wait loop of go_nogo_execute_update
exits, counting from `count` with `fuel` polls remaining: the loop continues
while the observed status is UPDATING and fewer than 5 sleeps happened. -/
def waitExitAux (o : Nat → UStatus) : Nat → Nat → Nat
  | count, 0 => count
  | count, fuel + 1 =>
    if o count = UStatus.updating then waitExitAux o (count + 1) fuel else count

/-- Exit index of the busy-wait loop (sleep_count bound is 5). -/
def waitExit (o : Nat → UStatus) : Nat := waitExitAux o 0 5

/-- Result of UpdateController.go_nogo_execute_update: the returned boolean,
the controller state at exit, and the mutation events performed. -/
structure GoResult where
  granted : Bool
  ctrl : UCtrl
  events : List GateEvent

/-- UpdateController.go_nogo_execute_update (lines 34-48).  The whole body
runs with update_lock held.  If check_last_update_run passes and no update
is in flight, mark_status_updating runs (under the lock) and true is
returned.  Otherwise the bounded busy-wait polls update_status (at most 5
sleeps of 0.5s); after the loop, true is returned exactly when the status is
still UPDATING (stuck-update fallback), else false. -/
def go_nogo_execute_update (c : UCtrl) (now : Int) (obs : Nat → UStatus) :
    GoResult :=
  if check_last_update_run c now && !(is_updating c) then
    { granted := true
      ctrl := { c with update_status := UStatus.updating }
      events := [GateEvent.markUpdating true] }
  else
    let o := entryObs c obs
    let e := waitExit o
    if o e = UStatus.updating then
      { granted := true, ctrl := { c with update_status := o e }, events := [] }
    else
      { granted := false, ctrl := { c with update_status := o e }, events := [] }

/-- go_nogo_execute_update in a single-threaded run: no concurrent writer,
so every poll observes the controller's own status field. -/
def go_nogo_seq (c : UCtrl) (now : Int) : GoResult :=
  go_nogo_execute_update c now (fun _ => c.update_status)

/-- UpdateController.mark_status_updated (lines 53-55): set status to
UPDATED and stamp last_update_run with the current time. -/
def mark_status_updated (c : UCtrl) (now : Int) : UCtrl :=
  { c with update_status := UStatus.updated, last_update_run := some now }

/-- Errors raised by the two fallible external collaborators of
update_cache: the remote fetch (GraphQL.get_all) and the store transaction
commit. -/
inductive HubErr where
  | transport
  | store
deriving DecidableEq

/-- StoryscriptHub state visible to the claims: the UpdateController and
the Service table contents (the rows, in insertion order).

Modelled from the spec: the Local Store (storyhub/sdk/db/Database.py and
db/Service.py are not under src/) follows the spec sect. 6 contract - a
durable table of service records, queried by alias or by (owner, name),
replaced wholesale inside one atomic transaction on refresh. -/
structure HubState where
  ctrl : UCtrl
  db : List SRecord

/-- Outcome of one StoryscriptHub.update_cache run: the returned value (or
the propagated error), the state at exit, whether the remote fetch was
invoked, whether the store transaction committed, and the mutation events
performed on the shared refresh state. -/
structure RunOutcome where
  result : Except HubErr Bool
  state : HubState
  fetched : Bool
  wrote : Bool
  events : List GateEvent

/-- StoryscriptHub.update_cache (lines 214-248), single-threaded run.  The
remote fetch and the transaction commit are passed as explicit Except
parameters.  There is no try/finally in the source: on a fetch or commit
error the exception propagates immediately, so mark_status_updated (line
246, executed without holding update_lock) runs only on the success path.
The commit replaces the whole table with the fetched payloads
(delete-all-then-insert inside one transaction); a failed commit leaves the
prior rows intact. -/
def update_cache (s : HubState) (now : Int)
    (fetch : Except HubErr (List SPayload)) (commit : Except HubErr Unit) :
    RunOutcome :=
  let g := go_nogo_seq s.ctrl now
  if g.granted then
    match fetch with
    | Except.error e =>
      { result := Except.error e, state := { s with ctrl := g.ctrl }
        fetched := true, wrote := false, events := g.events }
    | Except.ok services =>
      match commit with
      | Except.error e =>
        { result := Except.error e, state := { s with ctrl := g.ctrl }
          fetched := true, wrote := false, events := g.events }
      | Except.ok _ =>
        { result := Except.ok true
          state := { ctrl := mark_status_updated g.ctrl now
                     db := services.map toRecord }
          fetched := true, wrote := true
          events := g.events ++ [GateEvent.markUpdated false] }
  else
    { result := Except.ok false, state := { s with ctrl := g.ctrl }
      fetched := false, wrote := false, events := g.events }

/-- The alias entry contributed by one row in get_all_service_names: the
alias when it is truthy (present and non-empty), nothing otherwise. -/
def aliasEntry (r : SRecord) : Option String :=
  match r.alias_ with
  | some a => if a = "" then none else some a
  | none => none

/-- The owner/name compound entry contributed by one row in
get_all_service_names. -/
def compoundEntry (r : SRecord) : String := r.username ++ "/" ++ r.name

/-- StoryscriptHub.get_all_service_names (lines 122-139): for each stored
row, in table order, append the alias when truthy, then always append the
username/name compound string. -/
def get_all_service_names (db : List SRecord) : List String :=
  db.flatMap (fun r => (aliasEntry r).toList ++ [compoundEntry r])

/-- Select the first row whose (username, name) pair matches the given
owner/name arguments (peewee: Service.username == owner and Service.name ==
name, then .get(); DoesNotExist becomes an absent result).  A column never
matches an absent argument (peewee compares against NULL). -/
def pairFind (db : List SRecord) (owner name : Option String) :
    Option SRecord :=
  db.find? (fun r => some r.username == owner && some r.name == name)

/-- Select the first row whose alias matches the given literal alias. -/
def aliasFind (db : List SRecord) (a : String) : Option SRecord :=
  db.find? (fun r => r.alias_ == some a)

/-- Python str.split with a single-character separator, over the character
list: every separator occurrence starts a new part, and splitting the empty
list yields one empty part. -/
def splitChars (sep : Char) : List Char → List (List Char)
  | [] => [[]]
  | c :: cs =>
    let rest := splitChars sep cs
    if c = sep then [] :: rest
    else
      match rest with
      | [] => [[c]]
      | h :: t => (c :: h) :: t

/-- Python str.split applied to a string (alias.split of the separator in
_get); a list of length two means the separator occurred exactly once,
matching the alias.count check in the source. -/
def pySplit (sep : Char) (s : String) : List String :=
  (splitChars sep s.data).map (fun l => String.mk l)

/-- StoryscriptHub._get (lines 197-212).  When the alias argument contains
exactly one '/' (alias.count of the separator is 1, i.e. splitting yields
exactly two parts), it is split into owner and name and the alias is
cleared; the query then goes by alias when the alias is truthy, else by the
(owner, name) pair.  A missing row yields an absent result. -/
def hub_priv_get (db : List SRecord) (alias_ owner name : Option String) :
    Option SRecord :=
  match alias_ with
  | none => pairFind db owner name
  | some a =>
    match pySplit '/' a with
    | [o, n] => pairFind db (some o) (some n)
    | _ => if a = "" then pairFind db owner name else aliasFind db a

/-- Wrapped-service adapter lookup function.

Modelled from the spec: ServiceWrapper (storyhub/sdk/ServiceWrapper.py is
not under src/) follows the spec sect. 6 adapter contract - get(alias?,
owner?, name?) returning a result or absent; the result carries the raw
payload it was built from. -/
def WrapperFun : Type :=
  Option String → Option String → Option String → Option SPayload

/-- The adapter-first lookup performed by get when a service wrapper is
configured (lines 159-161); absent when no wrapper is configured. -/
def wrapperLookup (wrapper : Option WrapperFun)
    (alias_ owner name : Option String) : Option SPayload :=
  match wrapper with
  | some w => w alias_ owner name
  | none => none

/-- A service found by get, tagged with where it came from: the wrapped
service adapter or the plain store query. -/
inductive FoundService where
  | fromWrapper (p : SPayload)
  | fromStore (r : SRecord)

/-- The serialized raw payload carried by a found service (the raw_data
attribute read at line 186). -/
def rawOf : FoundService → Stored SPayload
  | FoundService.fromWrapper p => Stored.serialized p
  | FoundService.fromStore r => r.raw_data

/-- A plain store row as returned by get on the unwrapped path: the stored
row with its topics and configuration fields deserialized in place (lines
189-193, each guarded by a not-None check). -/
structure PlainService where
  record : SRecord
  topics : Option Json
  configuration : Option Json

/-- Deserialization performed by the unwrapped branch of get. -/
def deserializeService (r : SRecord) : PlainService :=
  { record := r
    topics := r.topics.map loads
    configuration := r.configuration.map loads }

/-- The value returned by a get call that found a service.

Modelled from the spec: ServiceData.from_dict (storyhub/sdk/service/
ServiceData.py is not under src/) converts the raw payload into the
adapter's richer result shape; the `wrapped` constructor applied to the
deserialized raw payload stands for that conversion. -/
inductive GetResult where
  | wrapped (payload : SPayload)
  | plain (svc : PlainService)

/-- The final branch of get (lines 174-195): when wrap_service was
requested or a service wrapper is configured, the raw stored payload is
deserialized and converted to the wrapped shape; otherwise the plain store
row is returned with topics and configuration deserialized. The fromWrapper
case with wrapIt false is unreachable in the source: an adapter result only
exists when an adapter is configured, which forces wrapIt. -/
def finishResult (wrapIt : Bool) (fs : FoundService) : GetResult :=
  if wrapIt then GetResult.wrapped (loads (rawOf fs))
  else
    match fs with
    | FoundService.fromStore r => GetResult.plain (deserializeService r)
    | FoundService.fromWrapper p => GetResult.wrapped p

/-- Outcome of one StoryscriptHub.get call: the returned value (absent for
a miss, or a propagated refresh error), the state at exit, the service that
was found (if any), and how many times update_cache was invoked. -/
structure GetOutcome where
  result : Except HubErr (Option GetResult)
  state : HubState
  found : Option FoundService
  refreshCalls : Nat

/-- StoryscriptHub.get (lines 141-195), single-threaded run.  Adapter-first
lookup, then the plain store query; on a miss the store query is repeated
once under retry_lock, then update_cache is forced (its gate-skip outcome
ignored, its exceptions propagating out of get) and the query runs one
final time.  A service still absent yields an absent result. -/
def hub_get (s : HubState) (now : Int)
    (fetch : Except HubErr (List SPayload)) (commit : Except HubErr Unit)
    (wrapper : Option WrapperFun) (alias_ owner name : Option String)
    (wrap_service : Bool) : GetOutcome :=
  let wrapIt := wrap_service || wrapper.isSome
  match wrapperLookup wrapper alias_ owner name with
  | some p =>
    { result := Except.ok (some (finishResult wrapIt (FoundService.fromWrapper p)))
      state := s, found := some (FoundService.fromWrapper p), refreshCalls := 0 }
  | none =>
    match hub_priv_get s.db alias_ owner name with
    | some r =>
      { result := Except.ok (some (finishResult wrapIt (FoundService.fromStore r)))
        state := s, found := some (FoundService.fromStore r), refreshCalls := 0 }
    | none =>
      match hub_priv_get s.db alias_ owner name with
      | some r =>
        { result := Except.ok (some (finishResult wrapIt (FoundService.fromStore r)))
          state := s, found := some (FoundService.fromStore r), refreshCalls := 0 }
      | none =>
        let run := update_cache s now fetch commit
        match run.result with
        | Except.error e =>
          { result := Except.error e, state := run.state
            found := none, refreshCalls := 1 }
        | Except.ok _ =>
          match hub_priv_get run.state.db alias_ owner name with
          | some r =>
            { result := Except.ok (some (finishResult wrapIt (FoundService.fromStore r)))
              state := run.state, found := some (FoundService.fromStore r)
              refreshCalls := 1 }
          | none =>
            { result := Except.ok none, state := run.state
              found := none, refreshCalls := 1 }

/-- Outcome of constructing a StoryscriptHub. -/
structure InitOutcome where
  state : HubState
  result : Except HubErr Unit
  fetched : Bool
  wrote : Bool
  refreshCalls : Nat

/-- StoryscriptHub.__init__ (lines 90-121), single-threaded run.  A fresh
UpdateController is created (no last run, IDLE).  When service_wrapper is
enabled, update_cache runs synchronously inside the constructor (line 116)
and its errors propagate out of the constructor; otherwise the constructor
touches neither the remote source nor the store (the AutoUpdateThread is an
external driver invoking update_cache later and is not part of the
constructor's own behavior).  The store may hold rows persisted by an
earlier process (db0). -/
def hubInit (service_wrapper : Bool) (update_interval : Int)
    (db0 : List SRecord) (now : Int)
    (fetch : Except HubErr (List SPayload)) (commit : Except HubErr Unit) :
    InitOutcome :=
  let s0 : HubState :=
    { ctrl := { last_update_run := none, update_interval := update_interval
                update_status := UStatus.idle }
      db := db0 }
  if service_wrapper then
    let run := update_cache s0 now fetch commit
    { state := run.state
      result := match run.result with
        | Except.error e => Except.error e
        | Except.ok _ => Except.ok ()
      fetched := run.fetched, wrote := run.wrote, refreshCalls := 1 }
  else
    { state := s0, result := Except.ok (), fetched := false, wrote := false
      refreshCalls := 0 }

/-- A concrete service payload used as a test fixture. -/
def pw : SPayload :=
  { serviceUuid := "u1", name := "widget", alias_ := some "w"
    username := "acme", description := "", isCertified := false
    public := true, topics := Json.arr [Json.str "a", Json.str "b"]
    state := "BETA", configuration := Json.obj [("x", Json.num 1)]
    readme := "" }

/-- A fresh hub state as produced by the constructor with the default
60-second interval and an empty store. -/
def sInit : HubState :=
  { ctrl := { last_update_run := none, update_interval := 60
              update_status := UStatus.idle }
    db := [] }

/-- A concrete stored row whose alias literally contains one slash. -/
def rec1 : SRecord :=
  { service_uuid := "u2", name := "n", alias_ := some "/x"
    username := "u", description := "", certified := false, public := true
    topics := none, state := "BETA", configuration := none, readme := ""
    raw_data := Stored.serialized pw }

/- ------------------------------------------------------------------ -/
/- Helper lemmas about the busy-wait loop and the gate.               -/
/- ------------------------------------------------------------------ -/

theorem waitExitAux_le (o : Nat → UStatus) (fuel count : Nat) :
    waitExitAux o count fuel ≤ count + fuel := by
  induction fuel generalizing count with
  | zero => simp [waitExitAux]
  | succ n ih =>
    simp only [waitExitAux]
    split
    · exact le_trans (ih (count + 1)) (by omega)
    · omega

theorem waitExitAux_stop (o : Nat → UStatus) (fuel count : Nat)
    (h : o count ≠ UStatus.updating) : waitExitAux o count fuel = count := by
  cases fuel with
  | zero => rfl
  | succ n => simp [waitExitAux, h]

theorem waitExitAux_all (o : Nat → UStatus) (fuel count : Nat)
    (h : ∀ k, count ≤ k → k ≤ count + fuel → o k = UStatus.updating) :
    waitExitAux o count fuel = count + fuel := by
  induction fuel generalizing count with
  | zero => rfl
  | succ n ih =>
    have hc : o count = UStatus.updating := h count le_rfl (by omega)
    simp only [waitExitAux, hc, if_pos]
    have := ih (count + 1) (fun k h1 h2 => h k (by omega) (by omega))
    omega

theorem waitExitAux_not_updating (o : Nat → UStatus) (fuel count : Nat)
    (h : ∃ k, count ≤ k ∧ k ≤ count + fuel ∧ o k ≠ UStatus.updating) :
    o (waitExitAux o count fuel) ≠ UStatus.updating := by
  induction fuel generalizing count with
  | zero =>
    obtain ⟨k, h1, h2, h3⟩ := h
    have : k = count := by omega
    subst this
    simpa [waitExitAux] using h3
  | succ n ih =>
    by_cases hc : o count = UStatus.updating
    · simp only [waitExitAux, hc, if_pos]
      apply ih (count + 1)
      obtain ⟨k, h1, h2, h3⟩ := h
      have hk : k ≠ count := fun e => h3 (e ▸ hc)
      exact ⟨k, by omega, by omega, h3⟩
    · rw [waitExitAux_stop o (n + 1) count hc]
      exact hc

theorem go_nogo_ctrl_fields (c : UCtrl) (now : Int) (obs : Nat → UStatus) :
    (go_nogo_execute_update c now obs).ctrl.last_update_run = c.last_update_run
    ∧ (go_nogo_execute_update c now obs).ctrl.update_interval = c.update_interval := by
  unfold go_nogo_execute_update
  split
  · exact ⟨rfl, rfl⟩
  · dsimp only
    split <;> exact ⟨rfl, rfl⟩

theorem go_nogo_granted_status (c : UCtrl) (now : Int) (obs : Nat → UStatus) :
    (go_nogo_execute_update c now obs).granted = true →
    (go_nogo_execute_update c now obs).ctrl.update_status = UStatus.updating := by
  unfold go_nogo_execute_update
  split
  · intro _; rfl
  · dsimp only
    split
    · next he => intro _; simpa using he
    · intro h; simp at h

theorem go_nogo_events_shape (c : UCtrl) (now : Int) (obs : Nat → UStatus) :
    (go_nogo_execute_update c now obs).events = [GateEvent.markUpdating true]
    ∨ (go_nogo_execute_update c now obs).events = [] := by
  unfold go_nogo_execute_update
  split
  · exact Or.inl rfl
  · dsimp only
    split <;> exact Or.inr rfl

theorem update_cache_ok_true_state (s : HubState) (now : Int)
    (ps : List SPayload) :
    (update_cache s now (Except.ok ps) (Except.ok ())).result = Except.ok true →
    (update_cache s now (Except.ok ps) (Except.ok ())).state =
      ⟨⟨some now, s.ctrl.update_interval, UStatus.updated⟩, ps.map toRecord⟩ := by
  unfold update_cache
  dsimp only
  split
  · intro _
    unfold go_nogo_seq
    have hf := (go_nogo_ctrl_fields s.ctrl now (fun _ => s.ctrl.update_status)).2
    dsimp only [mark_status_updated]
    rw [hf]
  · intro h
    exact absurd h (by simp)

theorem update_cache_interval_denied (I t1 t2 : Int) (db' : List SRecord)
    (f2 : Except HubErr (List SPayload)) (c2 : Except HubErr Unit)
    (h2 : t2 - t1 < I) :
    update_cache ⟨⟨some t1, I, UStatus.updated⟩, db'⟩ t2 f2 c2 =
      { result := Except.ok false
        state := ⟨⟨some t1, I, UStatus.updated⟩, db'⟩
        fetched := false, wrote := false, events := [] } := by
  have hchk : check_last_update_run ⟨some t1, I, UStatus.updated⟩ t2 = false := by
    simp only [check_last_update_run]
    rw [if_pos h2]
  have hgo : go_nogo_seq ⟨some t1, I, UStatus.updated⟩ t2 =
      { granted := false, ctrl := ⟨some t1, I, UStatus.updated⟩, events := [] } := by
    unfold go_nogo_seq go_nogo_execute_update
    have hcond : (check_last_update_run ⟨some t1, I, UStatus.updated⟩ t2
        && !(is_updating ⟨some t1, I, UStatus.updated⟩)) = false := by
      rw [hchk]; rfl
    simp only [hcond, Bool.false_eq_true, if_false]
    rfl
  unfold update_cache
  dsimp only
  rw [hgo]
  rfl

/- ------------------------------------------------------------------ -/
/- Claim theorems.                                                    -/
/- ------------------------------------------------------------------ -/

/-- C2: go_nogo_execute_update returns true and moves the phase to
Refreshing when the phase is not Refreshing and either no successful
refresh has happened yet or now minus the last successful refresh time is
at least the configured minimum interval; when the phase is Refreshing it
waits at most 5 polls (of 0.5 seconds each in the source) and returns false
exactly when the phase was observed to leave Refreshing during the wait,
true when it was still Refreshing at every poll; otherwise (interval not
elapsed, not refreshing) it returns false. -/
theorem go_nogo_execute_update_spec (c : UCtrl) (now : Int)
    (obs : Nat → UStatus) :
    ((c.update_status ≠ UStatus.updating ∧
        (c.last_update_run = none ∨
          ∃ t, c.last_update_run = some t ∧ c.update_interval ≤ now - t)) →
      (go_nogo_execute_update c now obs).granted = true ∧
      (go_nogo_execute_update c now obs).ctrl.update_status = UStatus.updating)
    ∧ (c.update_status = UStatus.updating →
        waitExit (entryObs c obs) ≤ 5 ∧
        ((go_nogo_execute_update c now obs).granted = true ↔
          ∀ k, k ≤ 5 → entryObs c obs k = UStatus.updating))
    ∧ ((c.update_status ≠ UStatus.updating ∧
        ∃ t, c.last_update_run = some t ∧ now - t < c.update_interval) →
      (go_nogo_execute_update c now obs).granted = false) := by
  refine ⟨?_, ?_, ?_⟩
  · rintro ⟨hst, hlast⟩
    have hchk : check_last_update_run c now = true := by
      rcases hlast with h | ⟨t, ht, hge⟩
      · simp [check_last_update_run, h]
      · simp only [check_last_update_run, ht]
        rw [if_neg (not_lt.mpr hge)]
    have hupd : is_updating c = false := by
      unfold is_updating
      rcases hs : c.update_status with _ | _ | _ <;> simp_all
    simp [go_nogo_execute_update, hchk, hupd]
  · intro hst
    have hupd : is_updating c = true := by simp [is_updating, hst]
    have hcond : (check_last_update_run c now && !(is_updating c)) = false := by
      simp [hupd]
    constructor
    · simpa [waitExit] using waitExitAux_le (entryObs c obs) 5 0
    · simp only [go_nogo_execute_update, hcond, Bool.false_eq_true, if_false]
      constructor
      · intro hg k hk
        by_contra hne
        have hnu := waitExitAux_not_updating (entryObs c obs) 5 0
          ⟨k, Nat.zero_le k, by omega, hne⟩
        rw [if_neg (by simpa [waitExit] using hnu)] at hg
        simp at hg
      · intro hall
        have he : waitExit (entryObs c obs) = 5 := by
          simpa [waitExit] using
            waitExitAux_all (entryObs c obs) 5 0
              (fun k h1 h2 => hall k (by omega))
        rw [if_pos (by rw [he]; exact hall 5 le_rfl)]
  · rintro ⟨hst, t, ht, hlt⟩
    have hchk : check_last_update_run c now = false := by
      simp only [check_last_update_run, ht]
      rw [if_pos hlt]
    have hcond : (check_last_update_run c now && !(is_updating c)) = false := by
      simp [hchk]
    have h0 : entryObs c obs 0 ≠ UStatus.updating := by
      simpa [entryObs] using hst
    have he : waitExit (entryObs c obs) = 0 :=
      waitExitAux_stop (entryObs c obs) 5 0 h0
    simp only [go_nogo_execute_update, hcond, Bool.false_eq_true, if_false]
    rw [if_neg (by rw [he]; exact h0)]

/-- C2 witness: a fresh controller (no previous run, phase Idle) grants the
refresh and transitions the phase to Refreshing. -/
theorem go_nogo_execute_update_spec_witness :
    (go_nogo_execute_update
        ⟨none, 60, UStatus.idle⟩ 0 (fun _ => UStatus.idle)).granted = true
    ∧ (go_nogo_execute_update
        ⟨none, 60, UStatus.idle⟩ 0 (fun _ => UStatus.idle)).ctrl.update_status
      = UStatus.updating :=
  (go_nogo_execute_update_spec ⟨none, 60, UStatus.idle⟩ 0
      (fun _ => UStatus.idle)).1 ⟨by decide, Or.inl rfl⟩

/-- C1 counterexample: a run of update_cache that passes the gate's
admission check and whose remote fetch raises exits with the phase still
Refreshing - the gate is not released on this exit path, refuting the claim
that the phase leaves Refreshing on every exit. -/
theorem update_cache_stuck_refreshing_cex :
    (go_nogo_seq sInit.ctrl 0).granted = true
    ∧ (update_cache sInit 0 (Except.error HubErr.transport)
        (Except.ok ())).result = Except.error HubErr.transport
    ∧ (update_cache sInit 0 (Except.error HubErr.transport)
        (Except.ok ())).state.ctrl.update_status = UStatus.updating :=
  ⟨rfl, rfl, rfl⟩

/-- C1 amended: update_cache releases the gate (marks the phase Updated and
stamps the timestamp) only on the successful exit path; when the remote
fetch or the store transaction raises, the error propagates and the phase
remains Refreshing.  Future refreshes are then unblocked only by the gate's
bounded-wait fallback, which grants a new attempt when the phase is still
Refreshing after the 5 polls. -/
theorem update_cache_gate_release (s : HubState) (now : Int) :
    (∀ e commit, (go_nogo_seq s.ctrl now).granted = true →
      (update_cache s now (Except.error e) commit).result = Except.error e
      ∧ (update_cache s now (Except.error e) commit).state.ctrl.update_status
          = UStatus.updating)
    ∧ (∀ ps e, (go_nogo_seq s.ctrl now).granted = true →
      (update_cache s now (Except.ok ps) (Except.error e)).result
          = Except.error e
      ∧ (update_cache s now (Except.ok ps)
          (Except.error e)).state.ctrl.update_status = UStatus.updating)
    ∧ (∀ ps, (update_cache s now (Except.ok ps) (Except.ok ())).result
          = Except.ok true →
      (update_cache s now (Except.ok ps) (Except.ok ())).state.ctrl.update_status
          = UStatus.updated
      ∧ (update_cache s now (Except.ok ps)
          (Except.ok ())).state.ctrl.last_update_run = some now)
    ∧ (∀ c : UCtrl, c.update_status = UStatus.updating →
      (go_nogo_execute_update c now (fun _ => UStatus.updating)).granted
          = true) := by
  refine ⟨?_, ?_, ?_, ?_⟩
  · intro e commit hg
    unfold update_cache
    dsimp only
    rw [if_pos hg]
    exact ⟨rfl, go_nogo_granted_status s.ctrl now (fun _ => s.ctrl.update_status) hg⟩
  · intro ps e hg
    unfold update_cache
    dsimp only
    rw [if_pos hg]
    exact ⟨rfl, go_nogo_granted_status s.ctrl now (fun _ => s.ctrl.update_status) hg⟩
  · intro ps h
    have hs := update_cache_ok_true_state s now ps h
    exact ⟨by rw [hs], by rw [hs]⟩
  · intro c h
    have hcond : (check_last_update_run c now && !(is_updating c)) = false := by
      simp [is_updating, h]
    unfold go_nogo_execute_update
    simp only [hcond, Bool.false_eq_true, if_false]
    have hall : ∀ k, entryObs c (fun _ => UStatus.updating) k = UStatus.updating := by
      intro k
      simp [entryObs, h]
    have he : waitExit (entryObs c (fun _ => UStatus.updating)) = 5 := by
      simpa [waitExit] using
        waitExitAux_all (entryObs c (fun _ => UStatus.updating)) 5 0
          (fun k _ _ => hall k)
    rw [if_pos (by rw [he]; exact hall 5)]

/-- C1 witness: a store-transaction failure propagates while the phase
stays Refreshing, per the amended release behavior. -/
theorem update_cache_gate_release_witness :
    (update_cache sInit 0 (Except.ok []) (Except.error HubErr.store)).result
        = Except.error HubErr.store
    ∧ (update_cache sInit 0 (Except.ok [])
        (Except.error HubErr.store)).state.ctrl.update_status
        = UStatus.updating :=
  (update_cache_gate_release sInit 0).2.1 [] HubErr.store rfl

/-- C4 counterexample: a successful update_cache run performs the
transition into Refreshing under update_lock but performs the release
transition and timestamp stamp (mark_status_updated) without holding the
lock, refuting the claim that every mutation of the shared refresh state
occurs under the lock. -/
theorem update_cache_release_outside_lock_cex :
    (update_cache sInit 0 (Except.ok []) (Except.ok ())).events
        = [GateEvent.markUpdating true, GateEvent.markUpdated false]
    ∧ ((update_cache sInit 0 (Except.ok [])
        (Except.ok ())).events.all eventUnderLock) = false :=
  ⟨rfl, rfl⟩

/-- The four possible mutation-event traces of an update_cache run: no
mutation (gate denied after an interval check or an observed completion), a
lone transition into Refreshing (gate granted but fetch/commit failed, or
granted with no release reached), a lone release (run admitted through the
stuck-refresh fallback, which performs no marking), or the full
grant-then-release trace of a successful run. -/
theorem update_cache_events_shape (s : HubState) (now : Int)
    (f : Except HubErr (List SPayload)) (c : Except HubErr Unit) :
    (update_cache s now f c).events = []
    ∨ (update_cache s now f c).events = [GateEvent.markUpdating true]
    ∨ (update_cache s now f c).events = [GateEvent.markUpdated false]
    ∨ (update_cache s now f c).events
        = [GateEvent.markUpdating true, GateEvent.markUpdated false] := by
  have hev := go_nogo_events_shape s.ctrl now (fun _ => s.ctrl.update_status)
  unfold update_cache
  dsimp only
  split
  · rcases f with e | ps
    · rcases hev with h | h
      · right; left; exact h
      · left; exact h
    · rcases c with e | u
      · rcases hev with h | h
        · right; left; exact h
        · left; exact h
      · rcases hev with h | h
        · right; right; right
          dsimp only
          rw [show (go_nogo_seq s.ctrl now).events
              = [GateEvent.markUpdating true] from h]
          rfl
        · right; right; left
          dsimp only
          rw [show (go_nogo_seq s.ctrl now).events = [] from h]
          rfl
  · rcases hev with h | h
    · right; left; exact h
    · left; exact h

/-- C4 amended: the mutations performed inside go_nogo_execute_update (the
admission decision and the transition into Refreshing) happen while
update_lock is held, while the release transition out of Refreshing and the
last-refresh timestamp stamp happen without holding that lock: in every
run, every markUpdating event is under the lock and every markUpdated
event is not. -/
theorem update_cache_lock_discipline (s : HubState) (now : Int)
    (f : Except HubErr (List SPayload)) (c : Except HubErr Unit) :
    (((update_cache s now f c).events.filter isMarkUpdating).all
        eventUnderLock) = true
    ∧ (((update_cache s now f c).events.filter isMarkUpdated).all
        (fun ev => !(eventUnderLock ev))) = true := by
  rcases update_cache_events_shape s now f c with h | h | h | h <;> rw [h] <;>
    exact ⟨rfl, rfl⟩

/-- C5: a second update_cache call started within the minimum interval
after a successful one returns false and performs neither the remote fetch
nor any store write; the store contents are unchanged. -/
theorem update_cache_idempotent (s : HubState) (t1 t2 : Int)
    (ps : List SPayload) (f2 : Except HubErr (List SPayload))
    (c2 : Except HubErr Unit)
    (h1 : (update_cache s t1 (Except.ok ps) (Except.ok ())).result
        = Except.ok true)
    (h2 : t2 - t1 < s.ctrl.update_interval) :
    (update_cache (update_cache s t1 (Except.ok ps) (Except.ok ())).state
        t2 f2 c2).result = Except.ok false
    ∧ (update_cache (update_cache s t1 (Except.ok ps) (Except.ok ())).state
        t2 f2 c2).fetched = false
    ∧ (update_cache (update_cache s t1 (Except.ok ps) (Except.ok ())).state
        t2 f2 c2).wrote = false
    ∧ (update_cache (update_cache s t1 (Except.ok ps) (Except.ok ())).state
        t2 f2 c2).state.db
        = (update_cache s t1 (Except.ok ps) (Except.ok ())).state.db := by
  have hs := update_cache_ok_true_state s t1 ps h1
  rw [hs, update_cache_interval_denied s.ctrl.update_interval t1 t2
    (ps.map toRecord) f2 c2 h2]
  exact ⟨rfl, rfl, rfl, rfl⟩

/-- C5 witness: a refresh at time 0 succeeds with the default 60-second
interval; a second call at time 30 is refused without fetch or write. -/
theorem update_cache_idempotent_witness :
    (update_cache (update_cache sInit 0 (Except.ok [pw]) (Except.ok ())).state
        30 (Except.ok []) (Except.ok ())).result = Except.ok false
    ∧ (update_cache (update_cache sInit 0 (Except.ok [pw]) (Except.ok ())).state
        30 (Except.ok []) (Except.ok ())).fetched = false
    ∧ (update_cache (update_cache sInit 0 (Except.ok [pw]) (Except.ok ())).state
        30 (Except.ok []) (Except.ok ())).wrote = false
    ∧ (update_cache (update_cache sInit 0 (Except.ok [pw]) (Except.ok ())).state
        30 (Except.ok []) (Except.ok ())).state.db
        = (update_cache sInit 0 (Except.ok [pw]) (Except.ok ())).state.db :=
  update_cache_idempotent sInit 0 30 [pw] (Except.ok []) (Except.ok ()) rfl
    (by decide)

/-- C3 counterexample: the alias "/x" contains exactly one '/' but its
first split part is empty; the claim says it is looked up as a literal
alias, yet _get on a store containing a row whose alias is literally "/x"
misses (the code splits and queries by the pair with an empty owner), while
a literal alias lookup would find the row. -/
theorem alias_slash_not_literal_cex :
    hub_priv_get [rec1] (some "/x") none none = none
    ∧ aliasFind [rec1] "/x" = some rec1 :=
  ⟨rfl, rfl⟩

/-- C3 amended: any alias containing exactly one '/' is split at it and
looked up by the resulting (owner, name) pair - the alias is cleared and
any explicitly passed owner/name are overridden - even when one or both
split parts are empty; an alias with no '/' or with two or more '/' is
looked up as a literal alias when non-empty, and an empty alias falls back
to the passed owner/name pair. -/
theorem hub_priv_get_alias_resolution (db : List SRecord) (a : String)
    (owner name : Option String) :
    (∀ o n, pySplit '/' a = [o, n] →
        hub_priv_get db (some a) owner name = pairFind db (some o) (some n))
    ∧ ((pySplit '/' a).length ≠ 2 → a ≠ "" →
        hub_priv_get db (some a) owner name = aliasFind db a)
    ∧ (a = "" → hub_priv_get db (some a) owner name = pairFind db owner name) := by
  refine ⟨?_, ?_, ?_⟩
  · intro o n h
    unfold hub_priv_get
    dsimp only
    rw [h]
  · intro h2 h3
    unfold hub_priv_get
    dsimp only
    rcases hsp : pySplit '/' a with _ | ⟨x, _ | ⟨y, _ | ⟨z, rest⟩⟩⟩
    · dsimp only
      rw [if_neg h3]
    · dsimp only
      rw [if_neg h3]
    · exact absurd (by rw [hsp]; rfl) h2
    · dsimp only
      rw [if_neg h3]
  · intro h
    subst h
    rfl

/-- C3 witness: the alias "acme/widget" resolves through the (owner, name)
pair query for ("acme", "widget"). -/
theorem hub_priv_get_alias_resolution_witness :
    hub_priv_get [toRecord pw] (some "acme/widget") none none
      = pairFind [toRecord pw] (some "acme") (some "widget") :=
  (hub_priv_get_alias_resolution [toRecord pw] "acme/widget" none none).1
    "acme" "widget" (by decide)

theorem perm_flatMap {α β : Type} (f : α → List β) {l₁ l₂ : List α}
    (p : l₁.Perm l₂) : (l₁.flatMap f).Perm (l₂.flatMap f) := by
  induction p with
  | nil => rfl
  | cons x p ih =>
    simp only [List.flatMap_cons]
    exact ih.append_left (f x)
  | swap x y l =>
    simp only [List.flatMap_cons, ← List.append_assoc]
    exact List.Perm.append_right _ List.perm_append_comm
  | trans p₁ p₂ ih₁ ih₂ => exact ih₁.trans ih₂

theorem names_perm (db : List SRecord) :
    (get_all_service_names db).Perm
      (db.filterMap aliasEntry ++ db.map compoundEntry) := by
  induction db with
  | nil => rfl
  | cons r t ih =>
    simp only [get_all_service_names, List.flatMap_cons, List.filterMap_cons,
      List.map_cons] at ih ⊢
    rcases h : aliasEntry r with _ | a
    · simp only [Option.toList_none, List.nil_append, List.cons_append,
        List.nil_append]
      exact (ih.cons (compoundEntry r)).trans List.perm_middle.symm
    · simp only [Option.toList_some, List.cons_append, List.singleton_append]
      exact ((ih.cons (compoundEntry r)).trans List.perm_middle.symm).cons a

/-- C8: after any successful refresh, get_all_service_names returns, up to
order, exactly one alias entry per stored record whose alias is present and
non-empty plus exactly one owner/name compound entry per stored record, and
the multiset of entries is independent of the rows' insertion order. -/
theorem get_all_service_names_spec (s : HubState) (now : Int)
    (ps : List SPayload)
    (h : (update_cache s now (Except.ok ps) (Except.ok ())).result
        = Except.ok true) :
    ((get_all_service_names
        ((update_cache s now (Except.ok ps) (Except.ok ())).state.db)).Perm
      (((update_cache s now (Except.ok ps) (Except.ok ())).state.db).filterMap
          aliasEntry
        ++ ((update_cache s now (Except.ok ps) (Except.ok ())).state.db).map
          compoundEntry))
    ∧ ∀ db' : List SRecord,
        ((update_cache s now (Except.ok ps) (Except.ok ())).state.db).Perm db' →
        (get_all_service_names
            ((update_cache s now (Except.ok ps) (Except.ok ())).state.db)).Perm
          (get_all_service_names db') := by
  refine ⟨names_perm _, ?_⟩
  intro db' hp
  exact perm_flatMap _ hp

/-- C8 witness: the entries after a concrete successful refresh. -/
theorem get_all_service_names_spec_witness :
    (get_all_service_names
        ((update_cache sInit 0 (Except.ok [pw]) (Except.ok ())).state.db)).Perm
      (((update_cache sInit 0 (Except.ok [pw]) (Except.ok ())).state.db).filterMap
          aliasEntry
        ++ ((update_cache sInit 0 (Except.ok [pw]) (Except.ok ())).state.db).map
          compoundEntry) :=
  (get_all_service_names_spec sInit 0 [pw] rfl).1

theorem hub_get_found_result (s : HubState) (now : Int)
    (f : Except HubErr (List SPayload)) (c : Except HubErr Unit)
    (wrapper : Option WrapperFun) (alias_ owner name : Option String)
    (ws : Bool) (fs : FoundService) :
    (hub_get s now f c wrapper alias_ owner name ws).found = some fs →
    (hub_get s now f c wrapper alias_ owner name ws).result
      = Except.ok (some (finishResult (ws || wrapper.isSome) fs)) := by
  unfold hub_get
  dsimp only
  split
  · intro h
    cases h
    rfl
  · split
    · intro h
      cases h
      rfl
    · split
      · intro h
        cases h
        rfl
      · split
        · intro h
          exact absurd h (by simp)
        · split
          · intro h
            cases h
            rfl
          · intro h
            exact absurd h (by simp)

theorem hub_get_found_store (s : HubState) (now : Int)
    (f : Except HubErr (List SPayload)) (c : Except HubErr Unit)
    (alias_ owner name : Option String) (ws : Bool) (fs : FoundService) :
    (hub_get s now f c none alias_ owner name ws).found = some fs →
    ∃ r, fs = FoundService.fromStore r := by
  unfold hub_get
  dsimp only [wrapperLookup]
  split
  · intro h
    cases h
    exact ⟨_, rfl⟩
  · split
    · intro h
      cases h
      exact ⟨_, rfl⟩
    · split
      · intro h
        exact absurd h (by simp)
      · split
        · intro h
          cases h
          exact ⟨_, rfl⟩
        · intro h
          exact absurd h (by simp)

/-- C9: for every get call that finds a record, when wrap_service is
requested, or a wrapped-service adapter is configured at all (even when the
record came from the plain store query), the result is built by converting
the found record's raw stored payload into the adapter's wrapped shape;
otherwise the plain store record is returned with its topics and
configuration deserialized from their stored serialized form. -/
theorem hub_get_wrap_shape (s : HubState) (now : Int)
    (f : Except HubErr (List SPayload)) (c : Except HubErr Unit)
    (wrapper : Option WrapperFun) (alias_ owner name : Option String)
    (ws : Bool) :
    ∀ fs, (hub_get s now f c wrapper alias_ owner name ws).found = some fs →
      ((ws = true ∨ wrapper.isSome = true) →
        (hub_get s now f c wrapper alias_ owner name ws).result
          = Except.ok (some (GetResult.wrapped (loads (rawOf fs)))))
      ∧ (ws = false → wrapper = none →
        ∃ r, fs = FoundService.fromStore r ∧
          (hub_get s now f c wrapper alias_ owner name ws).result
            = Except.ok (some (GetResult.plain (deserializeService r)))) := by
  intro fs hfs
  constructor
  · intro hw
    have hwi : (ws || wrapper.isSome) = true := by
      rcases hw with h | h <;> simp [h]
    rw [hub_get_found_result s now f c wrapper alias_ owner name ws fs hfs, hwi]
    rfl
  · intro hws hwn
    subst hws
    subst hwn
    obtain ⟨r, rfl⟩ := hub_get_found_store s now f c alias_ owner name false fs hfs
    refine ⟨r, rfl, ?_⟩
    rw [hub_get_found_result s now f c none alias_ owner name false
      (FoundService.fromStore r) hfs]
    rfl

/-- C9 witness: a wrapped get on a store record returns the record's raw
payload converted to the wrapped shape. -/
theorem hub_get_wrap_shape_witness :
    (hub_get (update_cache sInit 0 (Except.ok [pw]) (Except.ok ())).state 1
        (Except.ok []) (Except.ok ()) none (some "w") none none true).result
      = Except.ok (some (GetResult.wrapped pw)) :=
  ((hub_get_wrap_shape (update_cache sInit 0 (Except.ok [pw]) (Except.ok ())).state
      1 (Except.ok []) (Except.ok ()) none (some "w") none none true)
    (FoundService.fromStore (toRecord pw)) rfl).1 (Or.inl rfl)

/-- C6: when the adapter lookup and the first store query both miss, get
performs exactly one forced refresh (after the one re-query under
retry_lock); an error raised by that refresh propagates out of get; when
the refresh does not raise (whatever its gate outcome), the query runs one
final time against the post-refresh store and a record still absent yields
an absent result rather than an error; and every get call forces at most
one refresh. -/
theorem hub_get_miss_path (s : HubState) (now : Int)
    (f : Except HubErr (List SPayload)) (c : Except HubErr Unit)
    (wrapper : Option WrapperFun) (alias_ owner name : Option String)
    (ws : Bool)
    (hwrap : wrapperLookup wrapper alias_ owner name = none)
    (hmiss : hub_priv_get s.db alias_ owner name = none) :
    (hub_get s now f c wrapper alias_ owner name ws).refreshCalls = 1
    ∧ (∀ e, (update_cache s now f c).result = Except.error e →
        (hub_get s now f c wrapper alias_ owner name ws).result
          = Except.error e)
    ∧ (∀ b, (update_cache s now f c).result = Except.ok b →
        ∀ r, hub_priv_get (update_cache s now f c).state.db alias_ owner name
            = some r →
          (hub_get s now f c wrapper alias_ owner name ws).result
            = Except.ok (some (finishResult (ws || wrapper.isSome)
                (FoundService.fromStore r))))
    ∧ (∀ b, (update_cache s now f c).result = Except.ok b →
        hub_priv_get (update_cache s now f c).state.db alias_ owner name
            = none →
          (hub_get s now f c wrapper alias_ owner name ws).result
            = Except.ok none)
    ∧ (∀ (s2 : HubState) (w2 : Option WrapperFun)
        (a2 o2 n2 : Option String) (ws2 : Bool),
        (hub_get s2 now f c w2 a2 o2 n2 ws2).refreshCalls ≤ 1) := by
  refine ⟨?_, ?_, ?_, ?_, ?_⟩
  · unfold hub_get
    dsimp only
    rw [hwrap, hmiss]
    dsimp only
    split
    · rfl
    · split <;> rfl
  · intro e he
    unfold hub_get
    dsimp only
    rw [hwrap, hmiss]
    dsimp only
    rw [he]
  · intro b hb r hr
    unfold hub_get
    dsimp only
    rw [hwrap, hmiss]
    dsimp only
    rw [hb]
    dsimp only
    rw [hr]
  · intro b hb hnone
    unfold hub_get
    dsimp only
    rw [hwrap, hmiss]
    dsimp only
    rw [hb]
    dsimp only
    rw [hnone]
  · intro s2 w2 a2 o2 n2 ws2
    unfold hub_get
    dsimp only
    split
    · simp
    · split
      · simp
      · split
        · simp
        · split
          · simp
          · split <;> simp

/-- C6 witness: on an empty store, a get whose forced refresh raises a
transport error propagates that error after exactly one refresh attempt. -/
theorem hub_get_miss_path_witness :
    (hub_get sInit 0 (Except.error HubErr.transport) (Except.ok ()) none
        (some "z") none none false).refreshCalls = 1
    ∧ (hub_get sInit 0 (Except.error HubErr.transport) (Except.ok ()) none
        (some "z") none none false).result = Except.error HubErr.transport :=
  ⟨(hub_get_miss_path sInit 0 (Except.error HubErr.transport) (Except.ok ())
      none (some "z") none none false rfl rfl).1,
    (hub_get_miss_path sInit 0 (Except.error HubErr.transport) (Except.ok ())
      none (some "z") none none false rfl rfl).2.1 HubErr.transport rfl⟩

/-- C7: a record stored by a successful refresh carries its topics and
configuration serialized; a subsequent unwrapped get that finds that record
returns the plain record with those same structured values deserialized
from the stored serialized text, not the serialized form. -/
theorem hub_get_roundtrip (s : HubState) (t1 t2 : Int) (ps : List SPayload)
    (f2 : Except HubErr (List SPayload)) (c2 : Except HubErr Unit)
    (alias_ owner name : Option String) (p : SPayload)
    (h1 : (update_cache s t1 (Except.ok ps) (Except.ok ())).result
        = Except.ok true)
    (hfind : hub_priv_get
        (update_cache s t1 (Except.ok ps) (Except.ok ())).state.db
        alias_ owner name = some (toRecord p)) :
    (hub_get (update_cache s t1 (Except.ok ps) (Except.ok ())).state t2 f2 c2
        none alias_ owner name false).result
      = Except.ok (some (GetResult.plain
          { record := toRecord p
            topics := some p.topics
            configuration := some p.configuration })) := by
  unfold hub_get
  dsimp only [wrapperLookup]
  rw [hfind]
  rfl

/-- C7 witness: the fixture stored with topics ["a","b"] and configuration
containing x = 1 comes back from an unwrapped get with those structured
values. -/
theorem hub_get_roundtrip_witness :
    (hub_get (update_cache sInit 0 (Except.ok [pw]) (Except.ok ())).state 1
        (Except.ok []) (Except.ok ()) none (some "w") none none false).result
      = Except.ok (some (GetResult.plain
          { record := toRecord pw
            topics := some (Json.arr [Json.str "a", Json.str "b"])
            configuration := some (Json.obj [("x", Json.num 1)]) })) :=
  hub_get_roundtrip sInit 0 1 [pw] (Except.ok []) (Except.ok ())
    (some "w") none none pw rfl rfl

/-- C10: constructing the hub with the wrapped-service adapter enabled
synchronously attempts one full refresh inside the constructor - the
remote fetch is always invoked (a fresh gate admits it) and, when fetch and
commit succeed, the store is replaced with the fetched records; with the
adapter disabled the constructor performs no remote fetch, no store write
and no refresh, leaving the store as it was. -/
theorem hubInit_spec (I now : Int) (db0 : List SRecord)
    (f : Except HubErr (List SPayload)) (c : Except HubErr Unit)
    (ps : List SPayload) :
    (hubInit true I db0 now f c).fetched = true
    ∧ (hubInit true I db0 now f c).refreshCalls = 1
    ∧ (f = Except.ok ps → c = Except.ok () →
        (hubInit true I db0 now f c).wrote = true
        ∧ (hubInit true I db0 now f c).state.db = ps.map toRecord)
    ∧ (hubInit false I db0 now f c).fetched = false
    ∧ (hubInit false I db0 now f c).wrote = false
    ∧ (hubInit false I db0 now f c).refreshCalls = 0
    ∧ (hubInit false I db0 now f c).state.db = db0 := by
  refine ⟨?_, rfl, ?_, rfl, rfl, rfl, rfl⟩
  · rcases f with e | ps'
    · rfl
    · rcases c with e | u
      · rfl
      · rfl
  · intro hf hc
    subst hf
    subst hc
    exact ⟨rfl, rfl⟩

/-- C10 witness: with the adapter enabled and a successful fetch and
commit, the constructor's synchronous refresh replaces the store. -/
theorem hubInit_spec_witness :
    (hubInit true 60 [] 0 (Except.ok [pw]) (Except.ok ())).wrote = true
    ∧ (hubInit true 60 [] 0 (Except.ok [pw]) (Except.ok ())).state.db
        = List.map toRecord [pw] :=
  (hubInit_spec 60 0 [] (Except.ok [pw]) (Except.ok ()) [pw]).2.2.1 rfl rfl

end StoryHub
